import Mathlib

/-!
Verification development for the MCP bridge / Gemini agent repository.

Shallow embedding of the automation-orchestration core:
* the tool dispatcher (`createMCPClientWrapper.callTool` in
  `src/mcp-bridge-server.js`),
* the backend detector (`findChromeCDPEndpoint`),
* the live-browser handle (`PlaywrightCDPHandler`),
* the task-session controller (`GeminiAgent.runTaskSession`) with its
  loop guard, target resolution and trace bookkeeping,
* the agent construction / `setModel` state machine.

External effects (the planning service, the MCP subprocess peer, the CDP
browser connection) are modelled as oracles: a planner is a function from
the invocation index to the raw response text together with its parsed
form, and tool execution is a function from the requested tool name and
arguments to an `Except`-valued outcome (the source wraps every such call
in try/catch, which the embedding mirrors with `executeTool`).
-/

namespace McpClient

/-- JS string truthiness for an optional string field: `undefined`/`null`
and the empty string are falsy. -/
def optStrTruthy : Option String → Bool
  | some s => s ≠ ""
  | none => false

/-- `a || b` on an optional string and a string, as JS evaluates it
(used for `parsed.args.ref = parsed.args.ref || computedRef`). -/
def jsOrOpt (a : Option String) (b : String) : Option String :=
  if optStrTruthy a then a else some b

/-- Substring test (JS `hay.includes(needle)`): the needle is a prefix
of some suffix of the haystack. -/
def substrOf (needle hay : String) : Bool :=
  let n := needle.toList
  let h := hay.toList
  (List.range (h.length + 1)).any (fun i => n.isPrefixOf (h.drop i))

/-! ## Tool dispatcher (`createMCPClientWrapper.callTool`) -/

/-- The fixed browser-tool category table from
`src/mcp-bridge-server.js` (identical in the wrapper and in the
`/mcp/tools/:toolName` endpoint). -/
def browserTools : List String :=
  ["browser_navigate", "browser_goto", "playwright_navigate", "playwright_goto",
   "browser_screenshot", "playwright_screenshot",
   "browser_click", "playwright_click",
   "browser_fill", "browser_type", "playwright_fill", "playwright_type",
   "browser_evaluate", "playwright_evaluate",
   "browser_accessibility_snapshot", "playwright_accessibility_snapshot",
   "browser_wait_for", "playwright_wait_for"]

/-- `browserTools.some(tool => toolName.includes(tool) || tool.includes(toolName))`:
the bidirectional substring routing test. -/
def toolMatchesBrowser (toolName : String) : Bool :=
  browserTools.any (fun tool => substrOf tool toolName || substrOf toolName tool)

/-- The live-browser operations the dispatcher can route to
(`playwrightCDP.navigate`, `.screenshot`, ...). -/
inductive CdpOp
  | navigate
  | screenshot
  | click
  | fill
  | typeText
  | evaluate
  | snapshot
  | waitFor
deriving DecidableEq, Repr

/-- The if/else chain inside the CDP branch of `callTool`: picks the
live-browser operation by substring tests on the tool name.  `none`
models the final `throw new Error('Tool not handled by CDP')`, which the
surrounding catch turns into a fall-through. -/
def routeCdpOp (toolName : String) : Option CdpOp :=
  if substrOf "navigate" toolName || substrOf "goto" toolName then some .navigate
  else if substrOf "screenshot" toolName then some .screenshot
  else if substrOf "click" toolName then some .click
  else if substrOf "fill" toolName then some .fill
  else if substrOf "type" toolName then some .typeText
  else if substrOf "evaluate" toolName then some .evaluate
  else if substrOf "accessibility" toolName || substrOf "snapshot" toolName then some .snapshot
  else if substrOf "wait" toolName then some .waitFor
  else none

/-- The dispatcher `createMCPClientWrapper().callTool`.
`cdpAvailable` models `playwrightCDP && playwrightCDP.isConnectedToBrowser()`,
`cdpExec` the outcome of the chosen live-browser operation (`.error` for a
thrown exception), `mcpAvailable` the `mcpClient` null check and `mcpCall`
the outcome of `mcpClient.callTool(request)`.  A CDP failure is logged and
falls through to the subprocess path; it is never re-raised. -/
def wrapperCallTool {V : Type} (cdpAvailable : Bool) (cdpExec : CdpOp → Except String V)
    (mcpAvailable : Bool) (mcpCall : Except String V) (toolName : String) :
    Except String V :=
  let fallback : Except String V :=
    if mcpAvailable then mcpCall else .error "MCP client not connected"
  if cdpAvailable && toolMatchesBrowser toolName then
    match routeCdpOp toolName with
    | some op =>
      match cdpExec op with
      | .ok v => .ok v
      | .error _ => fallback
    | none => fallback
  else fallback

/-! ## Backend detector (`findChromeCDPEndpoint`) -/

/-- Outcome of probing one candidate port:
* `ok2xxJson` — `response.ok` and `response.json()` succeeds;
* `ok2xxBadJson` — `response.ok` but `await response.json()` throws
  (caught by the surrounding try, scan continues);
* `notOk` — a non-2xx response (the `if` is skipped, scan continues);
* `netErr` — `fetch` threw (refused / 500ms timeout). -/
inductive ProbeOutcome
  | ok2xxJson
  | ok2xxBadJson
  | notOk
  | netErr
deriving DecidableEq, Repr

/-- `response.ok`, i.e. a 2xx status, regardless of the body. -/
def ProbeOutcome.is2xx : ProbeOutcome → Bool
  | .ok2xxJson => true
  | .ok2xxBadJson => true
  | .notOk => false
  | .netErr => false

/-- The fixed candidate list `[9222, 9223, 9224, 9225]`, in source order. -/
def cdpPorts : List Nat := [9222, 9223, 9224, 9225]

/-- `http://localhost:PORT` — the endpoint returned on success. -/
def endpointOf (port : Nat) : String :=
  "http://localhost:" ++ toString port

/-- The URL the detector fetches for each candidate port. -/
def probeUrl (port : Nat) : String :=
  endpointOf port ++ "/json/version"

/-- One HTTP request issued by the detector: a GET of `/json/version`
with `AbortSignal.timeout(500)`. -/
structure ProbeRequest where
  url : String
  timeoutMs : Nat
deriving DecidableEq, Repr

/-- The request issued for one port. -/
def requestFor (port : Nat) : ProbeRequest :=
  { url := probeUrl port, timeoutMs := 500 }

/-- The `for (const port of possiblePorts)` loop, instrumented with the
list of requests actually issued. -/
def detectorLoop (probe : Nat → ProbeOutcome) :
    List Nat → List ProbeRequest → Option String × List ProbeRequest
  | [], reqs => (none, reqs)
  | p :: rest, reqs =>
    let reqs' := reqs ++ [requestFor p]
    match probe p with
    | .ok2xxJson => (some (endpointOf p), reqs')
    | _ => detectorLoop probe rest reqs'

/-- `findChromeCDPEndpoint`: probe the four fixed ports in order, return
the first confirmed endpoint or `none`; also reports the requests issued
(instrumentation used to state the single-pass/timeout parts of the
contract). -/
def findChromeCDPEndpoint (probe : Nat → ProbeOutcome) :
    Option String × List ProbeRequest :=
  detectorLoop probe cdpPorts []

/-! ## Live-browser handle (`PlaywrightCDPHandler`) -/

/-- Instructions the handle can send to the externally-owned browser
process over the CDP connection.  `closeBrowser` is the terminate
instruction (`browser.close()`), which the source never issues from
`disconnect`. -/
inductive BrowserCmd
  | attach
  | newContext
  | newPage (pageId : String)
  | closePage (pageId : String)
  | closeBrowser
deriving DecidableEq, Repr

/-- Whether the browser process is still running after executing one
instruction: only `closeBrowser` terminates it. -/
def applyCmd (running : Bool) : BrowserCmd → Bool
  | .closeBrowser => false
  | _ => running

/-- Effect of a sequence of instructions on the browser process. -/
def applyCmds (running : Bool) (cmds : List BrowserCmd) : Bool :=
  cmds.foldl applyCmd running

/-- Local state of a `PlaywrightCDPHandler`: the endpoint, an opaque
browser reference, an opaque context reference, the page map keys and
the `isConnected` flag. -/
structure HandlerState where
  cdpEndpoint : String
  browser : Option Unit
  context : Option Unit
  pages : List String
  isConnected : Bool
deriving DecidableEq, Repr

/-- The constructor: all references empty, disconnected. -/
def HandlerState.new (cdpEndpoint : String) : HandlerState :=
  { cdpEndpoint := cdpEndpoint
    browser := none
    context := none
    pages := []
    isConnected := false }

/-- `connect()`, parameterized by what the attached process exposes:
reuse the first existing context or create one; index existing pages as
`page-0`, `page-1`, ... or create `page-0`. -/
def HandlerState.connect (s : HandlerState) (numContexts numPages : Nat) :
    HandlerState × List BrowserCmd :=
  let ctxCmds := if numContexts > 0 then [] else [BrowserCmd.newContext]
  let pageKeys :=
    if numPages > 0 then (List.range numPages).map (fun i => "page-" ++ toString i)
    else ["page-0"]
  let pageCmds := if numPages > 0 then [] else [BrowserCmd.newPage "page-0"]
  ({ s with
      browser := some Unit.unit
      context := some Unit.unit
      pages := pageKeys
      isConnected := true },
   [BrowserCmd.attach] ++ ctxCmds ++ pageCmds)

/-- `closePage(pageId)`: closes and drops the page if tracked (this one
does send a close-page instruction, for the page only). -/
def HandlerState.closePage (s : HandlerState) (pageId : String) :
    HandlerState × List BrowserCmd × Bool :=
  if s.pages.contains pageId then
    ({ s with pages := s.pages.filter (fun k => k ≠ pageId) },
     [BrowserCmd.closePage pageId], true)
  else (s, [], false)

/-- `disconnect()`: clear the page map, drop the context and browser
references, mark disconnected.  The body performs only local
assignments — `browser.close()` is deliberately not called — so the
instruction trace is empty. -/
def HandlerState.disconnect (s : HandlerState) : HandlerState × List BrowserCmd :=
  ({ s with
      pages := []
      context := none
      browser := none
      isConnected := false },
   [])

/-! ## Gemini agent construction and `setModel` -/

/-- Mutable fields of a `GeminiAgent` relevant to its public state
machine (`baseUrl` is a constant; `mcpClient` is an injected reference). -/
structure GeminiAgentState where
  apiKey : String
  model : String
  conversationHistory : List (String × String)
  availableTools : Option (List String)
deriving DecidableEq, Repr

/-- The constructor: the model field is hard-wired to
`gemini-2.5-flash`. -/
def GeminiAgentState.new (apiKey : String) : GeminiAgentState :=
  { apiKey := apiKey
    model := "gemini-2.5-flash"
    conversationHistory := []
    availableTools := none }

/-- `setModel(modelName)`: any name other than `gemini-2.5-flash` is
ignored with a warning; the allowed name is written back unchanged. -/
def GeminiAgentState.setModel (s : GeminiAgentState) (modelName : String) :
    GeminiAgentState :=
  if modelName ≠ "gemini-2.5-flash" then s
  else { s with model := modelName }

/-- `updateApiKey(apiKey)`. -/
def GeminiAgentState.updateApiKey (s : GeminiAgentState) (apiKey : String) :
    GeminiAgentState :=
  { s with apiKey := apiKey }

/-- `clearHistory()`. -/
def GeminiAgentState.clearHistory (s : GeminiAgentState) : GeminiAgentState :=
  { s with conversationHistory := [] }

/-- `initialize()`: records the tool catalog fetched from the MCP client
(the argument stands for the oracle's answer). -/
def GeminiAgentState.initTools (s : GeminiAgentState) (tools : List String) :
    GeminiAgentState :=
  { s with availableTools := some tools }

/-- State effect of `processMessage`: push the user message, push the
assistant reply, and keep only the last 10 history entries.  The reply
text is an oracle argument (it comes from the planning service). -/
def GeminiAgentState.processMessage (s : GeminiAgentState)
    (userMessage finalResponse : String) : GeminiAgentState :=
  let h := s.conversationHistory ++ [("user", userMessage), ("assistant", finalResponse)]
  { s with conversationHistory := if h.length > 10 then h.drop (h.length - 10) else h }

/-- One public call on the agent, with oracle answers where the source
consults an external service. -/
inductive AgentOp
  | setModel (name : String)
  | updateApiKey (key : String)
  | clearHistory
  | initTools (tools : List String)
  | processMessage (userMessage finalResponse : String)
deriving Repr

/-- Apply one public call. -/
def applyAgentOp (s : GeminiAgentState) : AgentOp → GeminiAgentState
  | .setModel name => s.setModel name
  | .updateApiKey key => s.updateApiKey key
  | .clearHistory => s.clearHistory
  | .initTools tools => s.initTools tools
  | .processMessage u r => s.processMessage u r

/-- Run a sequence of public calls from a freshly constructed agent. -/
def runAgentOps (apiKey : String) (ops : List AgentOp) : GeminiAgentState :=
  ops.foldl applyAgentOp (GeminiAgentState.new apiKey)

/-! ## Planner-response parsing (`parseGeminiResponse`) -/

/-- The opening-brace character, `\x7b`. -/
def lbrace : Char := Char.ofNat 123

/-- The closing-brace character, `\x7d`. -/
def rbrace : Char := Char.ofNat 125

/-- The `response.match` regex extraction: greedy, so the candidate runs
from the first opening brace to the last closing brace after it;
`none` when the pattern does not occur. -/
def extractBraced (s : String) : Option String :=
  let cs := s.toList
  match cs.findIdx? (· == lbrace) with
  | none => none
  | some i =>
    let closers := (List.range cs.length).filter
      (fun j => decide (i < j) && (cs.getD j lbrace == rbrace))
    match closers.getLast? with
    | none => none
    | some j => some (String.mk ((cs.drop i).take (j - i + 1)))

/-- Tool-call arguments as the controller observes them: the `ref`
field (the concrete page-element target) is explicit because the loop
guard, target resolution and execution inspect it; every other key/value
pair is kept opaque in `rest`. -/
structure JsArgs where
  ref : Option String := none
  rest : String := ""
deriving DecidableEq, Repr

/-- Model of `JSON.stringify(args)`: an encoding of the argument record
used only for equality comparison in the loop-guard signature. -/
def JsArgs.serialize (a : JsArgs) : String :=
  (match a.ref with
   | none => ""
   | some r => "ref=" ++ r ++ ";") ++ a.rest

/-- The parsed planning-service output, as the controller projects it:
`action` is `none` when the JSON object has no (truthy) `action` field;
`args` is `none` when absent (the source then substitutes an empty
object). -/
structure ParsedObj where
  action : Option String := none
  tool : String := ""
  args : Option JsArgs := none
  message : Option String := none
deriving DecidableEq, Repr

/-- The fallback object `{ action: 'respond', message: response }`. -/
def respondWith (raw : String) : ParsedObj :=
  { action := some "respond", message := some raw }

/-- `parseGeminiResponse(response)`: extract the first-to-last braced
candidate and hand it to `JSON.parse` (modelled by the oracle `jparse`,
`none` for a parse exception); any failure coerces the whole raw text
into a `respond` action. -/
def parseGeminiResponse (jparse : String → Option ParsedObj) (response : String) :
    ParsedObj :=
  match extractBraced response with
  | some candidate =>
    match jparse candidate with
    | some obj => obj
    | none => respondWith response
  | none => respondWith response

/-! ## Task-session controller (`GeminiAgent.runTaskSession`) -/

/-- The session-visible outcome of one tool execution:
`ok r` for `{ success: true, result: r }`, `fail e` for
`{ success: false, error: e }`. -/
inductive ToolOutcome
  | ok (result : String)
  | fail (error : String)
deriving DecidableEq, Repr

/-- `GeminiAgent.executeTool`: the entire body is wrapped in try/catch,
so a thrown error from the dispatched call becomes a
`{ success: false, error }` value and never propagates.  The argument is
the outcome of the dispatched MCP/CDP call. -/
def executeTool (call : Except String String) : ToolOutcome :=
  match call with
  | .ok r => ToolOutcome.ok r
  | .error e => ToolOutcome.fail e

/-- The loop-guard signature `` `${parsed.tool}|${JSON.stringify(parsed.args || {})}` ``. -/
def actionSig (tool : String) (args : JsArgs) : String :=
  tool ++ "|" ++ args.serialize

/-- `computeRefIfMissing(tool, args, hint)`: an explicit truthy
`args.ref` is returned unchanged; otherwise the result of the page-side
heuristic lookup (the `heuristic` oracle, `none` for "not found" or any
caught failure) is returned. -/
def computeRefIfMissing (heuristic : Option String) (args : JsArgs) : Option String :=
  if optStrTruthy args.ref then args.ref else heuristic

/-- The merge step `if (computedRef) { parsed.args.ref = parsed.args.ref || computedRef }`. -/
def mergeRef (args : JsArgs) (computed : Option String) : JsArgs :=
  match computed with
  | some c => if c ≠ "" then { args with ref := jsOrOpt args.ref c } else args
  | none => args

/-- `parsed.message || geminiResponse || 'Done'` (JS string truthiness). -/
def messageOf (parsedMessage : Option String) (raw : String) : String :=
  match parsedMessage with
  | some m => if m ≠ "" then m else (if raw ≠ "" then raw else "Done")
  | none => if raw ≠ "" then raw else "Done"

/-- One completed iteration, as pushed onto the session trace. -/
structure Step where
  iteration : Nat
  tool : String
  args : JsArgs
  result : ToolOutcome
deriving DecidableEq, Repr

/-- How a session run ended (instrumentation; the source encodes this
only through the returned message/success pair). -/
inductive TermKind
  | loopStop
  | doneResp
  | unknownAct
  | maxIter
deriving DecidableEq, Repr

/-- The value of `runTaskSession`: `success`, `message` and `trace` are
the fields of the source's return object; `invocations` (number of
planning-service calls made), `contexts` (the `lastToolResult` value
visible to each planning call) and `terminal` are instrumentation used
to state the spec's properties. -/
structure SessResult where
  success : Bool
  message : String
  trace : List Step
  invocations : Nat
  contexts : List (Option ToolOutcome)
  terminal : TermKind
deriving DecidableEq, Repr

/-- The loop-guard stop message. -/
def stopMsg : String := "Stopped: repeated action detected (no progress)."

/-- The iteration-budget message `` `Max iterations (${maxIterations}) reached` ``. -/
def maxIterMsg (n : Nat) : String :=
  "Max iterations (" ++ toString n ++ ") reached"

/-- Abstraction of `JSON.stringify(parsed)` in the unknown-action
message. -/
def stringifyParsed (p : ParsedObj) : String :=
  "action=" ++ p.action.getD "" ++ ",tool=" ++ p.tool

/-- The `while (iteration < maxIterations && !finished)` loop of
`runTaskSession`.  Arguments after the oracles: remaining fuel
(`maxIterations - iteration`, so the loop condition is `fuel > 0`), the
planning-invocation index `k`, the executed-step counter `iteration`,
the trace so far, the loop-guard state (`previousActionSignature`,
`repeatCount`), the previous tool result, and the recorded context list.
The planner oracle `P` maps an invocation index to the raw response text
and its parsed form; `E` is the dispatched tool call's outcome; `H` is
the target-resolution heuristic's answer for that invocation. -/
def sessLoop (P : Nat → String × ParsedObj) (E : String → JsArgs → Except String String)
    (H : Nat → Option String) (effMax : Nat) :
    Nat → Nat → Nat → List Step → Option String → Nat → Option ToolOutcome →
    List (Option ToolOutcome) → SessResult
  | 0, k, _iter, trace, _prevSig, _rep, _lastRes, ctxs =>
    { success := false
      message := maxIterMsg effMax
      trace := trace
      invocations := k
      contexts := ctxs
      terminal := .maxIter }
  | fuel + 1, k, iter, trace, prevSig, rep, lastRes, ctxs =>
    let raw := (P k).1
    let parsed := (P k).2
    let ctxs' := ctxs ++ [lastRes]
    if parsed.action = some "call_tool" then
      let args0 := parsed.args.getD {}
      let sig := actionSig parsed.tool args0
      let rep' := if prevSig = some sig then rep + 1 else 0
      if rep' ≥ 2 then
        { success := true
          message := stopMsg
          trace := trace
          invocations := k + 1
          contexts := ctxs'
          terminal := .loopStop }
      else
        let args1 := mergeRef args0 (computeRefIfMissing (H k) args0)
        let toolResult := executeTool (E parsed.tool args1)
        let trace' := trace ++
          [{ iteration := iter + 1, tool := parsed.tool, args := args1, result := toolResult }]
        sessLoop P E H effMax fuel (k + 1) (iter + 1) trace' (some sig) rep'
          (some toolResult) ctxs'
    else if parsed.action = some "done" ∨ parsed.action = some "respond" ∨
        optStrTruthy parsed.action = false then
      { success := true
        message := messageOf parsed.message raw
        trace := trace
        invocations := k + 1
        contexts := ctxs'
        terminal := .doneResp }
    else
      { success := false
        message := "Unknown action from Gemini: " ++ stringifyParsed parsed
        trace := trace
        invocations := k + 1
        contexts := ctxs'
        terminal := .unknownAct }

/-- `(options && options.maxIterations) || 10`: an absent or zero
option falls back to the default of 10. -/
def effectiveMaxIterations : Option Nat → Nat
  | some n => if n = 0 then 10 else n
  | none => 10

/-- `GeminiAgent.runTaskSession(task, context, options)`, with the
planning service, tool execution and target-resolution heuristic as
oracles.  The task text and context only shape the prompts, which the
planner oracle absorbs. -/
def runTaskSession (P : Nat → String × ParsedObj)
    (E : String → JsArgs → Except String String) (H : Nat → Option String)
    (maxIterationsOpt : Option Nat) : SessResult :=
  let m := effectiveMaxIterations maxIterationsOpt
  sessLoop P E H m m 0 0 [] none 0 none []

/-- One entry of the in-memory session store. -/
structure SessionRecord where
  status : String
  message : Option String
  trace : List Step
  result : Option SessResult
  error : Option String
deriving Repr

/-- The background-session wrapper in `app.post('/gemini/chat')`: after
`await geminiAgent.runTaskSession(...)` resolves, the store entry is
updated with `status: 'finished'`, the session result and its trace.
The catch branch (`status: 'error'`) fires only when `runTaskSession`
throws, which in this embedding — where the planner, executor and
heuristic are total oracles — cannot happen. -/
def runBackgroundSession (task : String) (P : Nat → String × ParsedObj)
    (E : String → JsArgs → Except String String) (H : Nat → Option String)
    (maxIterationsOpt : Option Nat) : SessionRecord :=
  let r := runTaskSession P E H maxIterationsOpt
  { status := "finished"
    message := some task
    trace := r.trace
    result := some r
    error := none }

/-! ## Auxiliary notions used by the statements -/

/-- The loop-guard signature of the planner's `j`-th proposed action. -/
def psig (P : Nat → String × ParsedObj) (j : Nat) : String :=
  actionSig (P j).2.tool ((P j).2.args.getD {})

/-- The arguments the controller actually executes for the planner's
`j`-th action, after target resolution. -/
def execArgsOf (P : Nat → String × ParsedObj) (H : Nat → Option String) (j : Nat) :
    JsArgs :=
  mergeRef ((P j).2.args.getD {}) (computeRefIfMissing (H j) ((P j).2.args.getD {}))

/-- The outcome of executing the planner's `j`-th action. -/
def execOutcomeOf (P : Nat → String × ParsedObj)
    (E : String → JsArgs → Except String String) (H : Nat → Option String) (j : Nat) :
    ToolOutcome :=
  executeTool (E (P j).2.tool (execArgsOf P H j))

/-- The Step the controller appends when executing the planner's `j`-th
action as the `iterNum`-th executed step. -/
def execStepOf (P : Nat → String × ParsedObj)
    (E : String → JsArgs → Except String String) (H : Nat → Option String)
    (j iterNum : Nat) : Step :=
  { iteration := iterNum
    tool := (P j).2.tool
    args := execArgsOf P H j
    result := execOutcomeOf P E H j }

/-- A trace whose steps carry 1-based, consecutive iteration numbers. -/
def Numbered (trace : List Step) : Prop :=
  ∀ i (h : i < trace.length), (trace.get ⟨i, h⟩).iteration = i + 1

/-! ## Helper lemmas -/

lemma get?_append_cons {α : Type} (l : List α) (x : α) (t : List α) :
    (l ++ x :: t).get? l.length = some x := by
  induction l with
  | nil => rfl
  | cons a l ih => simpa using ih

lemma numbered_nil : Numbered [] := by
  intro i h
  simp at h

lemma numbered_append (trace : List Step) (x : Step)
    (hx : x.iteration = trace.length + 1) (h : Numbered trace) :
    Numbered (trace ++ [x]) := by
  intro i hi
  rcases Nat.lt_or_ge i trace.length with hlt | hge
  · have : (trace ++ [x]).get ⟨i, hi⟩ = trace.get ⟨i, hlt⟩ := by
      rw [List.get_append]
    rw [this]
    exact h i hlt
  · have hieq : i = trace.length := by
      simp at hi
      omega
    subst hieq
    have : (trace ++ [x]).get ⟨trace.length, hi⟩ = x := by
      rw [List.get_append_right] <;> simp
    rw [this, hx]

lemma effectiveMaxIterations_pos (mOpt : Option Nat) :
    1 ≤ effectiveMaxIterations mOpt := by
  cases mOpt with
  | none => simp [effectiveMaxIterations]
  | some n =>
    simp only [effectiveMaxIterations]
    split <;> omega

lemma sessLoop_zero (P : Nat → String × ParsedObj)
    (E : String → JsArgs → Except String String) (H : Nat → Option String)
    (effMax k iter : Nat) (trace : List Step) (prevSig : Option String) (rep : Nat)
    (lastRes : Option ToolOutcome) (ctxs : List (Option ToolOutcome)) :
    sessLoop P E H effMax 0 k iter trace prevSig rep lastRes ctxs =
      { success := false
        message := maxIterMsg effMax
        trace := trace
        invocations := k
        contexts := ctxs
        terminal := .maxIter } := rfl

lemma sessLoop_exec_step (P : Nat → String × ParsedObj)
    (E : String → JsArgs → Except String String) (H : Nat → Option String)
    (effMax fuel k iter : Nat) (trace : List Step) (prevSig : Option String) (rep : Nat)
    (lastRes : Option ToolOutcome) (ctxs : List (Option ToolOutcome))
    (hA : (P k).2.action = some "call_tool")
    (hRep : ¬ (if prevSig = some (psig P k) then rep + 1 else 0) ≥ 2) :
    sessLoop P E H effMax (fuel + 1) k iter trace prevSig rep lastRes ctxs =
      sessLoop P E H effMax fuel (k + 1) (iter + 1)
        (trace ++ [execStepOf P E H k (iter + 1)])
        (some (psig P k))
        (if prevSig = some (psig P k) then rep + 1 else 0)
        (some (execOutcomeOf P E H k))
        (ctxs ++ [lastRes]) := by
  simp only [sessLoop, psig] at hRep ⊢
  rw [if_pos hA, if_neg hRep]
  simp [execStepOf, execArgsOf, execOutcomeOf, psig]

lemma sessLoop_guard_stop (P : Nat → String × ParsedObj)
    (E : String → JsArgs → Except String String) (H : Nat → Option String)
    (effMax fuel k iter : Nat) (trace : List Step) (prevSig : Option String) (rep : Nat)
    (lastRes : Option ToolOutcome) (ctxs : List (Option ToolOutcome))
    (hA : (P k).2.action = some "call_tool")
    (hRep : (if prevSig = some (psig P k) then rep + 1 else 0) ≥ 2) :
    sessLoop P E H effMax (fuel + 1) k iter trace prevSig rep lastRes ctxs =
      { success := true
        message := stopMsg
        trace := trace
        invocations := k + 1
        contexts := ctxs ++ [lastRes]
        terminal := .loopStop } := by
  simp only [sessLoop, psig] at hRep ⊢
  rw [if_pos hA, if_pos hRep]

lemma sessLoop_finish (P : Nat → String × ParsedObj)
    (E : String → JsArgs → Except String String) (H : Nat → Option String)
    (effMax fuel k iter : Nat) (trace : List Step) (prevSig : Option String) (rep : Nat)
    (lastRes : Option ToolOutcome) (ctxs : List (Option ToolOutcome))
    (hA : ¬ (P k).2.action = some "call_tool")
    (hFin : (P k).2.action = some "done" ∨ (P k).2.action = some "respond" ∨
      optStrTruthy (P k).2.action = false) :
    sessLoop P E H effMax (fuel + 1) k iter trace prevSig rep lastRes ctxs =
      { success := true
        message := messageOf (P k).2.message (P k).1
        trace := trace
        invocations := k + 1
        contexts := ctxs ++ [lastRes]
        terminal := .doneResp } := by
  simp only [sessLoop]
  rw [if_neg hA, if_pos hFin]

lemma sessLoop_unknown_action (P : Nat → String × ParsedObj)
    (E : String → JsArgs → Except String String) (H : Nat → Option String)
    (effMax fuel k iter : Nat) (trace : List Step) (prevSig : Option String) (rep : Nat)
    (lastRes : Option ToolOutcome) (ctxs : List (Option ToolOutcome))
    (hA : ¬ (P k).2.action = some "call_tool")
    (hFin : ¬ ((P k).2.action = some "done" ∨ (P k).2.action = some "respond" ∨
      optStrTruthy (P k).2.action = false)) :
    sessLoop P E H effMax (fuel + 1) k iter trace prevSig rep lastRes ctxs =
      { success := false
        message := "Unknown action from Gemini: " ++ stringifyParsed (P k).2
        trace := trace
        invocations := k + 1
        contexts := ctxs ++ [lastRes]
        terminal := .unknownAct } := by
  simp only [sessLoop]
  rw [if_neg hA, if_neg hFin]

/-- The loop only appends to the trace and the context list, records one
context entry per planning invocation, and — when any fuel remains — the
first recorded context entry is the `lastToolResult` handed in. -/
lemma sessLoop_extends (P : Nat → String × ParsedObj)
    (E : String → JsArgs → Except String String) (H : Nat → Option String)
    (effMax : Nat) :
    ∀ (fuel k iter : Nat) (trace : List Step) (prevSig : Option String) (rep : Nat)
      (lastRes : Option ToolOutcome) (ctxs : List (Option ToolOutcome)),
      ∃ (t : List Step) (c : List (Option ToolOutcome)),
        (sessLoop P E H effMax fuel k iter trace prevSig rep lastRes ctxs).trace =
          trace ++ t ∧
        (sessLoop P E H effMax fuel k iter trace prevSig rep lastRes ctxs).contexts =
          ctxs ++ c ∧
        (sessLoop P E H effMax fuel k iter trace prevSig rep lastRes ctxs).invocations =
          k + c.length ∧
        (0 < fuel → ∃ c', c = lastRes :: c') := by
  intro fuel
  induction fuel with
  | zero =>
    intro k iter trace prevSig rep lastRes ctxs
    exact ⟨[], [], by simp [sessLoop_zero], by simp [sessLoop_zero],
      by simp [sessLoop_zero], by omega⟩
  | succ fuel ih =>
    intro k iter trace prevSig rep lastRes ctxs
    by_cases hA : (P k).2.action = some "call_tool"
    · by_cases hRep : (if prevSig = some (psig P k) then rep + 1 else 0) ≥ 2
      · rw [sessLoop_guard_stop P E H effMax fuel k iter trace prevSig rep lastRes ctxs hA hRep]
        exact ⟨[], [lastRes], by simp, by simp, by simp, fun _ => ⟨[], rfl⟩⟩
      · rw [sessLoop_exec_step P E H effMax fuel k iter trace prevSig rep lastRes ctxs hA hRep]
        obtain ⟨t₁, c₁, h1, h2, h3, h4⟩ :=
          ih (k + 1) (iter + 1) (trace ++ [execStepOf P E H k (iter + 1)])
            (some (psig P k))
            (if prevSig = some (psig P k) then rep + 1 else 0)
            (some (execOutcomeOf P E H k)) (ctxs ++ [lastRes])
        refine ⟨execStepOf P E H k (iter + 1) :: t₁, lastRes :: c₁, ?_, ?_, ?_,
          fun _ => ⟨c₁, rfl⟩⟩
        · rw [h1]; simp
        · rw [h2]; simp
        · rw [h3]; simp; omega
    · by_cases hFin : (P k).2.action = some "done" ∨ (P k).2.action = some "respond" ∨
        optStrTruthy (P k).2.action = false
      · rw [sessLoop_finish P E H effMax fuel k iter trace prevSig rep lastRes ctxs hA hFin]
        exact ⟨[], [lastRes], by simp, by simp, by simp, fun _ => ⟨[], rfl⟩⟩
      · rw [sessLoop_unknown_action P E H effMax fuel k iter trace prevSig rep lastRes ctxs
          hA hFin]
        exact ⟨[], [lastRes], by simp, by simp, by simp, fun _ => ⟨[], rfl⟩⟩

/-- Trace/iteration-number accounting for the loop: traces stay
1-based-consecutively numbered, and the number of planning invocations
exceeds the number of appended steps by exactly one unless the budget
ran out. -/
lemma sessLoop_accounting (P : Nat → String × ParsedObj)
    (E : String → JsArgs → Except String String) (H : Nat → Option String)
    (effMax : Nat) :
    ∀ (fuel k iter : Nat) (trace : List Step) (prevSig : Option String) (rep : Nat)
      (lastRes : Option ToolOutcome) (ctxs : List (Option ToolOutcome)),
      trace.length = iter → Numbered trace →
      Numbered (sessLoop P E H effMax fuel k iter trace prevSig rep lastRes ctxs).trace ∧
      ((sessLoop P E H effMax fuel k iter trace prevSig rep lastRes ctxs).terminal =
          .maxIter →
        (sessLoop P E H effMax fuel k iter trace prevSig rep lastRes ctxs).invocations +
          trace.length =
          k + (sessLoop P E H effMax fuel k iter trace prevSig rep lastRes ctxs).trace.length) ∧
      ((sessLoop P E H effMax fuel k iter trace prevSig rep lastRes ctxs).terminal ≠
          .maxIter →
        (sessLoop P E H effMax fuel k iter trace prevSig rep lastRes ctxs).invocations +
          trace.length =
          k + (sessLoop P E H effMax fuel k iter trace prevSig rep lastRes ctxs).trace.length
            + 1) := by
  intro fuel
  induction fuel with
  | zero =>
    intro k iter trace prevSig rep lastRes ctxs hlen hnum
    rw [sessLoop_zero]
    exact ⟨hnum, fun _ => by simp, fun h => absurd rfl h⟩
  | succ fuel ih =>
    intro k iter trace prevSig rep lastRes ctxs hlen hnum
    by_cases hA : (P k).2.action = some "call_tool"
    · by_cases hRep : (if prevSig = some (psig P k) then rep + 1 else 0) ≥ 2
      · rw [sessLoop_guard_stop P E H effMax fuel k iter trace prevSig rep lastRes ctxs hA hRep]
        exact ⟨hnum, by simp, fun _ => by simp; omega⟩
      · rw [sessLoop_exec_step P E H effMax fuel k iter trace prevSig rep lastRes ctxs hA hRep]
        have hlen' : (trace ++ [execStepOf P E H k (iter + 1)]).length = iter + 1 := by
          simp [hlen]
        have hnum' : Numbered (trace ++ [execStepOf P E H k (iter + 1)]) := by
          apply numbered_append trace _ _ hnum
          simp [execStepOf, hlen]
        obtain ⟨ha, hb, hc⟩ :=
          ih (k + 1) (iter + 1) (trace ++ [execStepOf P E H k (iter + 1)])
            (some (psig P k)) (if prevSig = some (psig P k) then rep + 1 else 0)
            (some (execOutcomeOf P E H k)) (ctxs ++ [lastRes]) hlen' hnum'
        refine ⟨ha, ?_, ?_⟩
        · intro hterm
          have := hb hterm
          simp at this ⊢
          omega
        · intro hterm
          have := hc hterm
          simp at this ⊢
          omega
    · by_cases hFin : (P k).2.action = some "done" ∨ (P k).2.action = some "respond" ∨
        optStrTruthy (P k).2.action = false
      · rw [sessLoop_finish P E H effMax fuel k iter trace prevSig rep lastRes ctxs hA hFin]
        exact ⟨hnum, by simp, fun _ => by simp; omega⟩
      · rw [sessLoop_unknown_action P E H effMax fuel k iter trace prevSig rep lastRes ctxs
          hA hFin]
        exact ⟨hnum, by simp, fun _ => by simp; omega⟩

/-! ## Claim C7 — a failed tool call does not end the session -/

/-- Claim C7: when the dispatched tool call of a `call_tool` iteration
fails, no exception escapes the execution step: the failure is captured
as that step's `result`, the Step is still appended to the trace, and
the controller invokes the planning service at least once more, feeding
the failure back as the next invocation's context, instead of marking
the session `error` at that point. -/
theorem failed_tool_call_continues (P : Nat → String × ParsedObj)
    (E : String → JsArgs → Except String String) (H : Nat → Option String)
    (effMax fuel k iter : Nat) (trace : List Step) (prevSig : Option String) (rep : Nat)
    (lastRes : Option ToolOutcome) (ctxs : List (Option ToolOutcome)) (e : String)
    (hctx : ctxs.length = k)
    (hfuel : 2 ≤ fuel)
    (hA : (P k).2.action = some "call_tool")
    (hguard : ¬ (if prevSig = some (psig P k) then rep + 1 else 0) ≥ 2)
    (hfail : E (P k).2.tool (execArgsOf P H k) = .error e) :
    (sessLoop P E H effMax fuel k iter trace prevSig rep lastRes ctxs).trace.get?
        trace.length = some (execStepOf P E H k (iter + 1)) ∧
    (execStepOf P E H k (iter + 1)).result = ToolOutcome.fail e ∧
    k + 2 ≤ (sessLoop P E H effMax fuel k iter trace prevSig rep lastRes ctxs).invocations ∧
    (sessLoop P E H effMax fuel k iter trace prevSig rep lastRes ctxs).contexts.get?
        (k + 1) = some (some (ToolOutcome.fail e)) := by
  obtain ⟨f, rfl⟩ : ∃ f, fuel = f + 2 := ⟨fuel - 2, by omega⟩
  have hout : execOutcomeOf P E H k = ToolOutcome.fail e := by
    simp [execOutcomeOf, executeTool, hfail]
  rw [show f + 2 = (f + 1) + 1 from rfl,
    sessLoop_exec_step P E H effMax (f + 1) k iter trace prevSig rep lastRes ctxs hA hguard]
  obtain ⟨t₁, c₁, h1, h2, h3, h4⟩ :=
    sessLoop_extends P E H effMax (f + 1) (k + 1) (iter + 1)
      (trace ++ [execStepOf P E H k (iter + 1)]) (some (psig P k))
      (if prevSig = some (psig P k) then rep + 1 else 0)
      (some (execOutcomeOf P E H k)) (ctxs ++ [lastRes])
  obtain ⟨c', hc'⟩ := h4 (by omega)
  refine ⟨?_, ?_, ?_, ?_⟩
  · rw [h1]
    have hassoc : trace ++ [execStepOf P E H k (iter + 1)] ++ t₁ =
        trace ++ (execStepOf P E H k (iter + 1) :: t₁) := by simp
    rw [hassoc, get?_append_cons]
  · simp [execStepOf, hout]
  · rw [h3, hc']
    simp only [List.length_cons]
    omega
  · rw [h2, hc']
    have hlen : (ctxs ++ [lastRes]).length = k + 1 := by simp [hctx]
    have hg := get?_append_cons (ctxs ++ [lastRes]) (some (execOutcomeOf P E H k)) c'
    rw [hlen] at hg
    rw [hg, hout]

/-- Witness for C7: a failing `browser_click` at the first iteration of
a 10-iteration session; the step lands in the trace with the failure as
its result and the planner is consulted again with that failure as
context. -/
theorem failed_tool_call_continues_witness :
    (sessLoop
        (fun j => if j = 0 then
           ("", { action := some "call_tool", tool := "browser_click",
                  args := some { ref := some "#b", rest := "" } })
         else ("", { action := some "done", message := some "finished" }))
        (fun _ _ => Except.error "element not found") (fun _ => none)
        10 10 0 0 [] none 0 none []).trace.get? 0 =
      some { iteration := 1, tool := "browser_click",
             args := { ref := some "#b", rest := "" },
             result := ToolOutcome.fail "element not found" } ∧
    0 + 2 ≤ (sessLoop
        (fun j => if j = 0 then
           ("", { action := some "call_tool", tool := "browser_click",
                  args := some { ref := some "#b", rest := "" } })
         else ("", { action := some "done", message := some "finished" }))
        (fun _ _ => Except.error "element not found") (fun _ => none)
        10 10 0 0 [] none 0 none []).invocations ∧
    (sessLoop
        (fun j => if j = 0 then
           ("", { action := some "call_tool", tool := "browser_click",
                  args := some { ref := some "#b", rest := "" } })
         else ("", { action := some "done", message := some "finished" }))
        (fun _ _ => Except.error "element not found") (fun _ => none)
        10 10 0 0 [] none 0 none []).contexts.get? 1 =
      some (some (ToolOutcome.fail "element not found")) := by
  have h := failed_tool_call_continues
    (fun j => if j = 0 then
       ("", { action := some "call_tool", tool := "browser_click",
              args := some { ref := some "#b", rest := "" } })
     else ("", { action := some "done", message := some "finished" }))
    (fun _ _ => Except.error "element not found") (fun _ => none)
    10 10 0 0 [] none 0 none [] "element not found"
    rfl (by omega) (by decide) (by decide) rfl
  refine ⟨?_, h.2.2.1, h.2.2.2⟩
  have h1 := h.1
  simp only [List.length_nil] at h1
  rw [h1]
  decide

/-! ## Claim C3 — trace-length invariant -/

/-- Claim C3: the trace length equals the number of tool calls actually
executed — one Step per executed `call_tool`, numbered 1, 2, ... in
order — and a terminal `done`/`respond` (or loop-stop, or
unknown-action) invocation appends no Step, so whenever any
non-`call_tool` action occurred the trace is strictly shorter than the
number of planning-service invocations; the two counts agree exactly
when the iteration budget ran out. -/
theorem trace_invariant (P : Nat → String × ParsedObj)
    (E : String → JsArgs → Except String String) (H : Nat → Option String)
    (mOpt : Option Nat) :
    Numbered (runTaskSession P E H mOpt).trace ∧
    ((runTaskSession P E H mOpt).terminal = .maxIter →
      (runTaskSession P E H mOpt).invocations = (runTaskSession P E H mOpt).trace.length) ∧
    ((runTaskSession P E H mOpt).terminal ≠ .maxIter →
      (runTaskSession P E H mOpt).invocations =
        (runTaskSession P E H mOpt).trace.length + 1) ∧
    ((runTaskSession P E H mOpt).terminal = .doneResp →
      (runTaskSession P E H mOpt).trace.length <
        (runTaskSession P E H mOpt).invocations) := by
  have h := sessLoop_accounting P E H (effectiveMaxIterations mOpt)
    (effectiveMaxIterations mOpt) 0 0 [] none 0 none [] rfl numbered_nil
  have hrun : runTaskSession P E H mOpt =
      sessLoop P E H (effectiveMaxIterations mOpt) (effectiveMaxIterations mOpt)
        0 0 [] none 0 none [] := rfl
  rw [hrun]
  obtain ⟨ha, hb, hc⟩ := h
  refine ⟨ha, ?_, ?_, ?_⟩
  · intro hterm
    have := hb hterm
    simpa using this
  · intro hterm
    have := hc hterm
    simpa using this
  · intro hterm
    have := hc (by rw [hterm]; decide)
    simp at this
    omega

/-- Witness for C3: a session that runs one tool call and then `done`
makes two planning calls but records one Step. -/
theorem trace_invariant_witness :
    (runTaskSession
        (fun j => if j = 0 then
           ("", { action := some "call_tool", tool := "navigate",
                  args := some { ref := none, rest := "url" } })
         else ("", { action := some "done", message := some "Navigated" }))
        (fun _ _ => Except.ok "ok") (fun _ => none) (some 5)).terminal =
      TermKind.doneResp ∧
    (runTaskSession
        (fun j => if j = 0 then
           ("", { action := some "call_tool", tool := "navigate",
                  args := some { ref := none, rest := "url" } })
         else ("", { action := some "done", message := some "Navigated" }))
        (fun _ _ => Except.ok "ok") (fun _ => none) (some 5)).invocations =
      (runTaskSession
        (fun j => if j = 0 then
           ("", { action := some "call_tool", tool := "navigate",
                  args := some { ref := none, rest := "url" } })
         else ("", { action := some "done", message := some "Navigated" }))
        (fun _ _ => Except.ok "ok") (fun _ => none) (some 5)).trace.length + 1 := by
  refine ⟨by decide, ?_⟩
  have h := trace_invariant
    (fun j => if j = 0 then
       ("", { action := some "call_tool", tool := "navigate",
              args := some { ref := none, rest := "url" } })
     else ("", { action := some "done", message := some "Navigated" }))
    (fun _ _ => Except.ok "ok") (fun _ => none) (some 5)
  exact h.2.2.1 (by decide)

/-- If every planning answer up to the budget is `call_tool` and no
signature repeats three times in a row, the loop consumes its entire
fuel, executing one step per invocation, and ends in the
max-iterations state.  The four guard-state hypotheses are the loop
invariant relating `previousActionSignature`/`repeatCount` to the
planner's signatures. -/
lemma sessLoop_maxIter_run (P : Nat → String × ParsedObj)
    (E : String → JsArgs → Except String String) (H : Nat → Option String)
    (N : Nat)
    (hall : ∀ j, j < N → (P j).2.action = some "call_tool")
    (hnr : ∀ j, j + 2 < N →
      ¬(psig P j = psig P (j + 1) ∧ psig P (j + 1) = psig P (j + 2))) :
    ∀ (fuel k iter : Nat) (trace : List Step) (prevSig : Option String) (rep : Nat)
      (lastRes : Option ToolOutcome) (ctxs : List (Option ToolOutcome)),
      fuel + k = N →
      (k = 0 → prevSig = none ∧ rep = 0) →
      (1 ≤ k → prevSig = some (psig P (k - 1))) →
      rep ≤ 1 →
      (rep = 1 → 2 ≤ k ∧ psig P (k - 1) = psig P (k - 2)) →
      (sessLoop P E H N fuel k iter trace prevSig rep lastRes ctxs).success = false ∧
      (sessLoop P E H N fuel k iter trace prevSig rep lastRes ctxs).message =
        maxIterMsg N ∧
      (sessLoop P E H N fuel k iter trace prevSig rep lastRes ctxs).terminal = .maxIter ∧
      (sessLoop P E H N fuel k iter trace prevSig rep lastRes ctxs).trace.length =
        trace.length + fuel ∧
      (sessLoop P E H N fuel k iter trace prevSig rep lastRes ctxs).invocations = N := by
  intro fuel
  induction fuel with
  | zero =>
    intro k iter trace prevSig rep lastRes ctxs hN h0 h1 hrep hrep1
    rw [sessLoop_zero]
    exact ⟨rfl, rfl, rfl, by simp, by simpa using hN⟩
  | succ fuel ih =>
    intro k iter trace prevSig rep lastRes ctxs hN h0 h1 hrep hrep1
    have hkN : k < N := by omega
    have hA := hall k hkN
    have hnot11 : ¬ (prevSig = some (psig P k) ∧ rep = 1) := by
      rintro ⟨hp, hrepeq⟩
      obtain ⟨hk2, hsig12⟩ := hrep1 hrepeq
      have hk1 : 1 ≤ k := by omega
      have hps := h1 hk1
      rw [hp] at hps
      have hsig01 : psig P k = psig P (k - 1) := Option.some.inj hps
      have hj : k - 2 + 2 < N := by omega
      apply hnr (k - 2) hj
      constructor
      · have e1 : k - 2 + 1 = k - 1 := by omega
        rw [e1]
        exact hsig12.symm
      · have e1 : k - 2 + 1 = k - 1 := by omega
        have e2 : k - 2 + 2 = k := by omega
        rw [e1, e2]
        exact hsig01.symm
    have hguard : ¬ (if prevSig = some (psig P k) then rep + 1 else 0) ≥ 2 := by
      by_cases hp : prevSig = some (psig P k)
      · rw [if_pos hp]
        have : rep ≠ 1 := fun h => hnot11 ⟨hp, h⟩
        omega
      · rw [if_neg hp]
        omega
    rw [sessLoop_exec_step P E H N fuel k iter trace prevSig rep lastRes ctxs hA hguard]
    have h1' : 1 ≤ k + 1 →
        (some (psig P k) : Option String) = some (psig P (k + 1 - 1)) := by
      intro _
      simp
    have hrepLe : (if prevSig = some (psig P k) then rep + 1 else 0) ≤ 1 := by
      by_cases hp : prevSig = some (psig P k)
      · rw [if_pos hp]
        have : rep ≠ 1 := fun h => hnot11 ⟨hp, h⟩
        omega
      · rw [if_neg hp]
        omega
    have hrepEq1 : (if prevSig = some (psig P k) then rep + 1 else 0) = 1 →
        2 ≤ k + 1 ∧ psig P (k + 1 - 1) = psig P (k + 1 - 2) := by
      intro hq
      by_cases hp : prevSig = some (psig P k)
      · have hk1 : 1 ≤ k := by
          by_contra hk0
          have hk0' : k = 0 := by omega
          obtain ⟨hpn, -⟩ := h0 hk0'
          rw [hpn] at hp
          exact Option.noConfusion hp
        have hps := h1 hk1
        rw [hp] at hps
        have hsig : psig P k = psig P (k - 1) := Option.some.inj hps
        refine ⟨by omega, ?_⟩
        have e1 : k + 1 - 1 = k := by omega
        have e2 : k + 1 - 2 = k - 1 := by omega
        rw [e1, e2]
        exact hsig
      · rw [if_neg hp] at hq
        exact absurd hq (by omega)
    obtain ⟨ha, hb, hc, hd, he⟩ :=
      ih (k + 1) (iter + 1) (trace ++ [execStepOf P E H k (iter + 1)])
        (some (psig P k)) (if prevSig = some (psig P k) then rep + 1 else 0)
        (some (execOutcomeOf P E H k)) (ctxs ++ [lastRes])
        (by omega) (fun h => absurd h (by omega)) h1' hrepLe hrepEq1
    refine ⟨ha, hb, hc, ?_, he⟩
    rw [hd]
    simp
    omega

/-- Starting with a fresh loop-guard signature, three consecutive
planner answers with the same `(tool, serialized args)` signature make
the guard fire at the third: the first two are executed and appended,
the third is not, and the loop returns the repeated-action stop result
with `success: true`. -/
lemma sessLoop_guard_trip (P : Nat → String × ParsedObj)
    (E : String → JsArgs → Except String String) (H : Nat → Option String)
    (effMax fuel k iter : Nat) (trace : List Step) (prevSig : Option String) (rep : Nat)
    (lastRes : Option ToolOutcome) (ctxs : List (Option ToolOutcome))
    (hfuel : 3 ≤ fuel)
    (hA0 : (P k).2.action = some "call_tool")
    (hA1 : (P (k + 1)).2.action = some "call_tool")
    (hA2 : (P (k + 2)).2.action = some "call_tool")
    (hs1 : psig P k = psig P (k + 1))
    (hs2 : psig P (k + 1) = psig P (k + 2))
    (hfresh : prevSig ≠ some (psig P k)) :
    sessLoop P E H effMax fuel k iter trace prevSig rep lastRes ctxs =
      { success := true
        message := stopMsg
        trace := trace ++ [execStepOf P E H k (iter + 1), execStepOf P E H (k + 1) (iter + 2)]
        invocations := k + 3
        contexts := ctxs ++
          [lastRes, some (execOutcomeOf P E H k), some (execOutcomeOf P E H (k + 1))]
        terminal := .loopStop } := by
  obtain ⟨f, rfl⟩ : ∃ f, fuel = f + 3 := ⟨fuel - 3, by omega⟩
  have h1 : ¬ (if prevSig = some (psig P k) then rep + 1 else 0) ≥ 2 := by
    rw [if_neg hfresh]
    omega
  rw [show f + 3 = (f + 2) + 1 from rfl,
    sessLoop_exec_step P E H effMax (f + 2) k iter trace prevSig rep lastRes ctxs hA0 h1,
    if_neg hfresh]
  have h2cond : (some (psig P k) : Option String) = some (psig P (k + 1)) := by
    rw [hs1]
  have h2 : ¬ (if (some (psig P k) : Option String) = some (psig P (k + 1))
      then 0 + 1 else 0) ≥ 2 := by
    rw [if_pos h2cond]
    omega
  rw [show f + 2 = (f + 1) + 1 from rfl,
    sessLoop_exec_step P E H effMax (f + 1) (k + 1) (iter + 1)
      (trace ++ [execStepOf P E H k (iter + 1)]) (some (psig P k)) 0
      (some (execOutcomeOf P E H k)) (ctxs ++ [lastRes]) hA1 h2,
    if_pos h2cond]
  have h3cond : (some (psig P (k + 1)) : Option String) = some (psig P (k + 2)) := by
    rw [hs2]
  have h3 : (if (some (psig P (k + 1)) : Option String) = some (psig P (k + 2))
      then 0 + 1 + 1 else 0) ≥ 2 := by
    rw [if_pos h3cond]
  rw [sessLoop_guard_stop P E H effMax f (k + 2) (iter + 2)
    (trace ++ [execStepOf P E H k (iter + 1)] ++ [execStepOf P E H (k + 1) (iter + 1 + 1)])
    (some (psig P (k + 1))) (0 + 1)
    (some (execOutcomeOf P E H (k + 1)))
    (ctxs ++ [lastRes] ++ [some (execOutcomeOf P E H k)]) hA2 h3]
  simp [List.append_assoc]

/-! ## Claim C1 — loop guard -/

/-- Claim C1 (amended): when the planning service proposes `call_tool`
actions with the same `(tool, serialized args)` signature on the first
three iterations (budget at least 3), the session stops at the third
occurrence without executing it, with the result message
`Stopped: repeated action detected (no progress).`, the trace holding
exactly the first two executions of that action, `success: true` in the
session result, and the stored session status `finished` (not
`error`). -/
theorem loop_guard_stops_third (P : Nat → String × ParsedObj)
    (E : String → JsArgs → Except String String) (H : Nat → Option String)
    (task : String) (mOpt : Option Nat)
    (hm : 3 ≤ effectiveMaxIterations mOpt)
    (hA0 : (P 0).2.action = some "call_tool")
    (hA1 : (P 1).2.action = some "call_tool")
    (hA2 : (P 2).2.action = some "call_tool")
    (hs1 : psig P 0 = psig P 1)
    (hs2 : psig P 1 = psig P 2) :
    (runTaskSession P E H mOpt).success = true ∧
    (runTaskSession P E H mOpt).message = stopMsg ∧
    (runTaskSession P E H mOpt).terminal = .loopStop ∧
    (runTaskSession P E H mOpt).invocations = 3 ∧
    (runTaskSession P E H mOpt).trace =
      [execStepOf P E H 0 1, execStepOf P E H 1 2] ∧
    (runTaskSession P E H mOpt).trace.length = 2 ∧
    (runBackgroundSession task P E H mOpt).status = "finished" := by
  have hrun : runTaskSession P E H mOpt =
      sessLoop P E H (effectiveMaxIterations mOpt) (effectiveMaxIterations mOpt)
        0 0 [] none 0 none [] := rfl
  have h := sessLoop_guard_trip P E H (effectiveMaxIterations mOpt)
    (effectiveMaxIterations mOpt) 0 0 [] none 0 none [] hm hA0 hA1 hA2 hs1 hs2
    (by simp)
  rw [hrun, h]
  exact ⟨rfl, rfl, rfl, rfl, by simp, by simp, rfl⟩

/-- Witness for C1 (amended): a planner that keeps returning the same
`browser_click` call is stopped at the third proposal with two trace
entries. -/
theorem loop_guard_stops_third_witness :
    (runTaskSession
        (fun _ => ("", { action := some "call_tool", tool := "browser_click",
                         args := some { ref := some "#b", rest := "" } }))
        (fun _ _ => Except.ok "clicked") (fun _ => none) (some 10)).message = stopMsg ∧
    (runTaskSession
        (fun _ => ("", { action := some "call_tool", tool := "browser_click",
                         args := some { ref := some "#b", rest := "" } }))
        (fun _ _ => Except.ok "clicked") (fun _ => none) (some 10)).trace.length = 2 := by
  have h := loop_guard_stops_third
    (fun _ => ("", { action := some "call_tool", tool := "browser_click",
                     args := some { ref := some "#b", rest := "" } }))
    (fun _ _ => Except.ok "clicked") (fun _ => none) "task" (some 10)
    (by decide) rfl rfl rfl rfl rfl
  exact ⟨h.2.1, h.2.2.2.2.2.1⟩

/-- Counterexample for C1 as stated: on the very scenario of the claim
(the same `call_tool` proposed three times in a row) the session result
has `success: true` and the stored session status is `finished`, not
`error`/stopped; only the message says "Stopped". -/
theorem loop_guard_status_counterexample :
    (runTaskSession
        (fun _ => ("", { action := some "call_tool", tool := "navigate",
                         args := some { ref := none, rest := "u" } }))
        (fun _ _ => Except.ok "r") (fun _ => none) (some 10)).message = stopMsg ∧
    (runTaskSession
        (fun _ => ("", { action := some "call_tool", tool := "navigate",
                         args := some { ref := none, rest := "u" } }))
        (fun _ _ => Except.ok "r") (fun _ => none) (some 10)).trace.length = 2 ∧
    (runTaskSession
        (fun _ => ("", { action := some "call_tool", tool := "navigate",
                         args := some { ref := none, rest := "u" } }))
        (fun _ _ => Except.ok "r") (fun _ => none) (some 10)).success = true ∧
    (runBackgroundSession "task"
        (fun _ => ("", { action := some "call_tool", tool := "navigate",
                         args := some { ref := none, rest := "u" } }))
        (fun _ _ => Except.ok "r") (fun _ => none) (some 10)).status = "finished" ∧
    ¬ ((runBackgroundSession "task"
        (fun _ => ("", { action := some "call_tool", tool := "navigate",
                         args := some { ref := none, rest := "u" } }))
        (fun _ _ => Except.ok "r") (fun _ => none) (some 10)).status = "error") := by
  decide

/-! ## Claim C2 — iteration cap -/

/-- Claim C2 (amended): for `maxIterations = N` with `N ≥ 1` and a
planning service that returns `call_tool` on every iteration without
tripping the loop guard, the session terminates after exactly N executed
steps (trace length N) with a failure result (`success: false`) carrying
the message `Max iterations (N) reached`, after exactly N planning
invocations — while the stored session status is `finished`, not
`error`.  (For `N = 0` the JS `|| 10` default applies instead, see the
counterexample.) -/
theorem iteration_cap_exact (P : Nat → String × ParsedObj)
    (E : String → JsArgs → Except String String) (H : Nat → Option String)
    (task : String) (N : Nat)
    (hN : 1 ≤ N)
    (hall : ∀ j, j < N → (P j).2.action = some "call_tool")
    (hnr : ∀ j, j + 2 < N →
      ¬(psig P j = psig P (j + 1) ∧ psig P (j + 1) = psig P (j + 2))) :
    (runTaskSession P E H (some N)).trace.length = N ∧
    (runTaskSession P E H (some N)).success = false ∧
    (runTaskSession P E H (some N)).message = maxIterMsg N ∧
    (runTaskSession P E H (some N)).terminal = .maxIter ∧
    (runTaskSession P E H (some N)).invocations = N ∧
    (runBackgroundSession task P E H (some N)).status = "finished" := by
  have hm : effectiveMaxIterations (some N) = N := by
    show (if N = 0 then 10 else N) = N
    rw [if_neg (by omega : ¬ N = 0)]
  have hrun : runTaskSession P E H (some N) =
      sessLoop P E H N N 0 0 [] none 0 none [] := by
    unfold runTaskSession
    rw [hm]
  obtain ⟨ha, hb, hc, hd, he⟩ :=
    sessLoop_maxIter_run P E H N hall hnr N 0 0 [] none 0 none []
      (by omega) (fun _ => ⟨rfl, rfl⟩) (fun h => absurd h (by omega)) (by omega)
      (fun h => absurd h (by omega))
  rw [hrun]
  exact ⟨by rw [hd]; simp, ha, hb, hc, he, rfl⟩

/-- Witness for C2 (amended): `maxIterations = 2` with a constantly
tool-calling planner yields exactly 2 executed steps and the
max-iterations failure message. -/
theorem iteration_cap_exact_witness :
    (runTaskSession
        (fun _ => ("", { action := some "call_tool", tool := "navigate",
                         args := some { ref := none, rest := "u" } }))
        (fun _ _ => Except.ok "r") (fun _ => none) (some 2)).trace.length = 2 ∧
    (runTaskSession
        (fun _ => ("", { action := some "call_tool", tool := "navigate",
                         args := some { ref := none, rest := "u" } }))
        (fun _ _ => Except.ok "r") (fun _ => none) (some 2)).message = maxIterMsg 2 := by
  have h := iteration_cap_exact
    (fun _ => ("", { action := some "call_tool", tool := "navigate",
                     args := some { ref := none, rest := "u" } }))
    (fun _ _ => Except.ok "r") (fun _ => none) "task" 2
    (by omega) (fun j _ => rfl) (fun j hj => absurd hj (by omega))
  exact ⟨h.1, h.2.2.1⟩

/-- Counterexample for C2 as stated: with `maxIterations = 0` the JS
`(options && options.maxIterations) || 10` falls back to 10, so the
session executes 10 steps, not 0; and even then the stored session
status is `finished`, never `error`. -/
theorem iteration_cap_counterexample :
    (runTaskSession
        (fun k => ("", { action := some "call_tool", tool := "t",
                         args := some { ref := none, rest := toString k } }))
        (fun _ _ => Except.ok "r") (fun _ => none) (some 0)).trace.length = 10 ∧
    ¬ ((runTaskSession
        (fun k => ("", { action := some "call_tool", tool := "t",
                         args := some { ref := none, rest := toString k } }))
        (fun _ _ => Except.ok "r") (fun _ => none) (some 0)).trace.length = 0) ∧
    (runBackgroundSession "task"
        (fun k => ("", { action := some "call_tool", tool := "t",
                         args := some { ref := none, rest := toString k } }))
        (fun _ _ => Except.ok "r") (fun _ => none) (some 0)).status = "finished" ∧
    ¬ ((runBackgroundSession "task"
        (fun k => ("", { action := some "call_tool", tool := "t",
                         args := some { ref := none, rest := toString k } }))
        (fun _ _ => Except.ok "r") (fun _ => none) (some 0)).status = "error") := by
  decide

/-! ## Claim C6 — malformed planner output is coerced to respond -/

/-- Claim C6 (amended): a planning response containing no parseable JSON
object is coerced by the parser to a `respond` action carrying the raw
text, and a session receiving it finishes immediately — `success: true`,
stored status `finished`, no trace entry, a single planning invocation —
with that raw text as the result message, provided the text is nonempty.
(For the empty response the JS `||` chain substitutes `'Done'`, see the
counterexample.) -/
theorem malformed_coerced_to_respond (jparse : String → Option ParsedObj)
    (raw : String) (P : Nat → String × ParsedObj)
    (E : String → JsArgs → Except String String) (H : Nat → Option String)
    (task : String) (mOpt : Option Nat)
    (hraw : raw ≠ "")
    (hnojson : ∀ c, extractBraced raw = some c → jparse c = none)
    (hP : P 0 = (raw, parseGeminiResponse jparse raw)) :
    parseGeminiResponse jparse raw = respondWith raw ∧
    (runTaskSession P E H mOpt).success = true ∧
    (runTaskSession P E H mOpt).message = raw ∧
    (runTaskSession P E H mOpt).trace = [] ∧
    (runTaskSession P E H mOpt).invocations = 1 ∧
    (runTaskSession P E H mOpt).terminal = .doneResp ∧
    (runBackgroundSession task P E H mOpt).status = "finished" := by
  have hparse : parseGeminiResponse jparse raw = respondWith raw := by
    unfold parseGeminiResponse
    cases hx : extractBraced raw with
    | none => rfl
    | some c =>
      show (match jparse c with
            | some obj => obj
            | none => respondWith raw) = respondWith raw
      rw [hnojson c hx]
  have hp2 : (P 0).2 = respondWith raw := by
    rw [hP]
    exact hparse
  have hp1 : (P 0).1 = raw := by
    rw [hP]
  have hA : ¬ (P 0).2.action = some "call_tool" := by
    rw [hp2]
    simp [respondWith]
  have hFin : (P 0).2.action = some "done" ∨ (P 0).2.action = some "respond" ∨
      optStrTruthy (P 0).2.action = false :=
    Or.inr (Or.inl (by rw [hp2]; rfl))
  obtain ⟨f, hf⟩ : ∃ f, effectiveMaxIterations mOpt = f + 1 :=
    ⟨effectiveMaxIterations mOpt - 1, by
      have := effectiveMaxIterations_pos mOpt
      omega⟩
  have hrun : runTaskSession P E H mOpt =
      sessLoop P E H (effectiveMaxIterations mOpt) (effectiveMaxIterations mOpt)
        0 0 [] none 0 none [] := rfl
  rw [hrun, hf,
    sessLoop_finish P E H (f + 1) f 0 0 [] none 0 none [] hA hFin]
  refine ⟨hparse, rfl, ?_, rfl, rfl, rfl, rfl⟩
  rw [hp2, hp1]
  simp [respondWith, messageOf, hraw]

/-- Witness for C6 (amended): the non-JSON response
`I could not find a JSON action.` becomes the final message of an
immediately finished session with an empty trace. -/
theorem malformed_coerced_to_respond_witness :
    (runTaskSession
        (fun _ => ("I could not find a JSON action.",
                   parseGeminiResponse (fun _ => none) "I could not find a JSON action."))
        (fun _ _ => Except.ok "r") (fun _ => none) none).message =
      "I could not find a JSON action." ∧
    (runTaskSession
        (fun _ => ("I could not find a JSON action.",
                   parseGeminiResponse (fun _ => none) "I could not find a JSON action."))
        (fun _ _ => Except.ok "r") (fun _ => none) none).trace = [] := by
  have h := malformed_coerced_to_respond (fun _ => none)
    "I could not find a JSON action."
    (fun _ => ("I could not find a JSON action.",
               parseGeminiResponse (fun _ => none) "I could not find a JSON action."))
    (fun _ _ => Except.ok "r") (fun _ => none) "task" none
    (by decide) (fun c _ => rfl) rfl
  exact ⟨h.2.2.1, h.2.2.2.1⟩

/-- Counterexample for C6 as stated: the empty response contains no
parseable JSON object and is coerced to `respond` carrying `""`, but the
session's result message is then `'Done'` — not the raw text — because
the empty string is falsy in the `parsed.message || geminiResponse ||
'Done'` chain. -/
theorem malformed_coerced_counterexample :
    parseGeminiResponse (fun _ => none) "" = respondWith "" ∧
    (respondWith "").message = some "" ∧
    (runTaskSession (fun _ => ("", parseGeminiResponse (fun _ => none) ""))
        (fun _ _ => Except.ok "r") (fun _ => none) none).message = "Done" ∧
    ¬ ((runTaskSession (fun _ => ("", parseGeminiResponse (fun _ => none) ""))
        (fun _ _ => Except.ok "r") (fun _ => none) none).message = "") := by
  decide

/-! ## Claim C4 — dispatcher fallback on failure -/

/-- Claim C4: when the live-browser backend is connected, the tool name
matches a browser category, and the routed live-browser operation
throws, the dispatcher does not re-raise that error: within the same
invocation it retries against the subprocess backend and returns the
subprocess outcome — in particular the subprocess result when that call
succeeds. -/
theorem dispatcher_fallback_on_failure {V : Type}
    (cdpExec : CdpOp → Except String V) (mcpCall : Except String V)
    (toolName : String) (op : CdpOp) (e : String)
    (hmatch : toolMatchesBrowser toolName = true)
    (hroute : routeCdpOp toolName = some op)
    (hfail : cdpExec op = .error e) :
    wrapperCallTool true cdpExec true mcpCall toolName = mcpCall ∧
    (∀ v : V, mcpCall = .ok v →
      wrapperCallTool true cdpExec true mcpCall toolName = .ok v) := by
  constructor
  · simp [wrapperCallTool, hmatch, hroute, hfail]
  · intro v hv
    simp [wrapperCallTool, hmatch, hroute, hfail, hv]

/-- Witness for C4: `browser_click` routed to the click operation, which
fails; the subprocess result is returned. -/
theorem dispatcher_fallback_on_failure_witness :
    wrapperCallTool true (fun _ : CdpOp => (Except.error "cdp boom" : Except String String))
      true (Except.ok "sub result") "browser_click" = Except.ok "sub result" :=
  (dispatcher_fallback_on_failure (fun _ : CdpOp => Except.error "cdp boom")
      (Except.ok "sub result") "browser_click" CdpOp.click "cdp boom"
      (by decide) (by decide) rfl).2 "sub result" rfl

/-! ## Claim C5 — disconnect never terminates the browser -/

/-- Claim C5: `disconnect()` clears the page map, the context reference
and the browser reference, marks the handle disconnected, and sends the
browser no instruction at all — in particular no terminate instruction —
so the externally-owned browser process keeps running. -/
theorem disconnect_never_terminates_browser (s : HandlerState) :
    (s.disconnect.1.pages = [] ∧ s.disconnect.1.context = none ∧
      s.disconnect.1.browser = none ∧ s.disconnect.1.isConnected = false) ∧
    s.disconnect.2 = [] ∧
    BrowserCmd.closeBrowser ∉ s.disconnect.2 ∧
    (∀ running : Bool, applyCmds running s.disconnect.2 = running) := by
  refine ⟨⟨rfl, rfl, rfl, rfl⟩, rfl, ?_, ?_⟩
  · simp [HandlerState.disconnect]
  · intro running
    rfl

/-! ## Claim C8 — backend detector contract -/

/-- Claim C8 (amended): the detector probes exactly the fixed ports
9222, 9223, 9224, 9225 in that order, issuing to each a GET of
`/json/version` with a 500ms timeout; it returns the endpoint of the
first port whose response is 2xx *with a JSON body* (a 2xx response
whose body fails JSON parsing is treated like a failed probe and the
scan continues); it stops probing at the first confirmed port, probes
all four otherwise, performs no retries, and returns `none` when no
port confirms. -/
theorem detector_contract (probe : Nat → ProbeOutcome) :
    findChromeCDPEndpoint probe =
      (if probe 9222 = .ok2xxJson then (some (endpointOf 9222), [requestFor 9222])
       else if probe 9223 = .ok2xxJson then
         (some (endpointOf 9223), [requestFor 9222, requestFor 9223])
       else if probe 9224 = .ok2xxJson then
         (some (endpointOf 9224), [requestFor 9222, requestFor 9223, requestFor 9224])
       else if probe 9225 = .ok2xxJson then
         (some (endpointOf 9225),
          [requestFor 9222, requestFor 9223, requestFor 9224, requestFor 9225])
       else
         (none, [requestFor 9222, requestFor 9223, requestFor 9224, requestFor 9225])) := by
  cases h1 : probe 9222 <;> cases h2 : probe 9223 <;> cases h3 : probe 9224 <;>
    cases h4 : probe 9225 <;>
    simp [findChromeCDPEndpoint, cdpPorts, detectorLoop, h1, h2, h3, h4]

/-- Counterexample for C8 as stated: with a 2xx response whose body is
not JSON on port 9222 and a confirming response on 9223, the first
2xx port is 9222 but the detector returns the 9223 endpoint. -/
theorem detector_contract_counterexample :
    (cdpPorts.find? (fun p =>
        (if p = 9222 then ProbeOutcome.ok2xxBadJson
         else if p = 9223 then ProbeOutcome.ok2xxJson
         else ProbeOutcome.notOk).is2xx) = some 9222) ∧
    (findChromeCDPEndpoint (fun p =>
        if p = 9222 then ProbeOutcome.ok2xxBadJson
        else if p = 9223 then ProbeOutcome.ok2xxJson
        else ProbeOutcome.notOk)).1 = some "http://localhost:9223" ∧
    ¬ ((findChromeCDPEndpoint (fun p =>
        if p = 9222 then ProbeOutcome.ok2xxBadJson
        else if p = 9223 then ProbeOutcome.ok2xxJson
        else ProbeOutcome.notOk)).1 = some (endpointOf 9222)) := by
  decide

/-! ## Claim C9 — target resolution never overwrites an explicit target -/

/-- Claim C9: when the action's arguments already carry a concrete
(truthy) `ref`, `computeRefIfMissing` returns that very `ref` and the
merge step leaves the arguments untouched; when `ref` is absent (or
empty, hence falsy in JS), the heuristic's result is merged in only to
fill the gap, and the other argument fields are never modified. -/
theorem target_resolution_preserves_ref (heuristic : Option String) (args : JsArgs) :
    (optStrTruthy args.ref = true →
      computeRefIfMissing heuristic args = args.ref ∧
      mergeRef args (computeRefIfMissing heuristic args) = args) ∧
    (optStrTruthy args.ref = false →
      (mergeRef args (computeRefIfMissing heuristic args)).ref =
        (match heuristic with
         | some c => if c ≠ "" then some c else args.ref
         | none => args.ref)) ∧
    (mergeRef args (computeRefIfMissing heuristic args)).rest = args.rest := by
  obtain ⟨aref, arest⟩ := args
  refine ⟨?_, ?_, ?_⟩
  · intro htruthy
    cases aref with
    | none => simp [optStrTruthy] at htruthy
    | some r =>
      have hr : r ≠ "" := by
        simpa [optStrTruthy] using htruthy
      constructor
      · simp [computeRefIfMissing, optStrTruthy, hr]
      · simp [computeRefIfMissing, optStrTruthy, hr, mergeRef, jsOrOpt]
  · intro hfalsy
    have hc : computeRefIfMissing heuristic ⟨aref, arest⟩ = heuristic := by
      simp [computeRefIfMissing, hfalsy]
    rw [hc]
    cases heuristic with
    | none => simp [mergeRef]
    | some c =>
      by_cases hcne : c = ""
      · simp [mergeRef, hcne]
      · simp [mergeRef, hcne, jsOrOpt, hfalsy]
  · cases hcomp : computeRefIfMissing heuristic ⟨aref, arest⟩ with
    | none => simp [mergeRef]
    | some c =>
      by_cases hcne : c = ""
      · simp [mergeRef, hcne]
      · simp [mergeRef, hcne, jsOrOpt]

/-- Witness for C9: an explicit ref `#search` survives resolution with a
competing heuristic answer `#other`. -/
theorem target_resolution_preserves_ref_witness :
    computeRefIfMissing (some "#other") { ref := some "#search", rest := "x" } =
      some "#search" ∧
    mergeRef { ref := some "#search", rest := "x" }
      (computeRefIfMissing (some "#other") { ref := some "#search", rest := "x" }) =
      { ref := some "#search", rest := "x" } :=
  (target_resolution_preserves_ref (some "#other")
    { ref := some "#search", rest := "x" }).1 (by decide)

/-! ## Claim C10 — the model field is locked to gemini-2.5-flash -/

/-- Claim C10: the agent's model field is `gemini-2.5-flash` at
construction and after any sequence of public calls; `setModel` with any
other name leaves the state unchanged. -/
theorem model_locked (apiKey : String) (ops : List AgentOp) :
    (GeminiAgentState.new apiKey).model = "gemini-2.5-flash" ∧
    (runAgentOps apiKey ops).model = "gemini-2.5-flash" ∧
    (∀ (s : GeminiAgentState) (name : String), name ≠ "gemini-2.5-flash" →
      s.setModel name = s) := by
  refine ⟨rfl, ?_, ?_⟩
  · have step : ∀ (s : GeminiAgentState) (op : AgentOp),
        s.model = "gemini-2.5-flash" → (applyAgentOp s op).model = "gemini-2.5-flash" := by
      intro s op h
      cases op with
      | setModel name =>
        by_cases hn : name = "gemini-2.5-flash"
        · simp [applyAgentOp, GeminiAgentState.setModel, hn]
        · simpa [applyAgentOp, GeminiAgentState.setModel, hn] using h
      | updateApiKey key => simpa [applyAgentOp, GeminiAgentState.updateApiKey] using h
      | clearHistory => simpa [applyAgentOp, GeminiAgentState.clearHistory] using h
      | initTools tools => simpa [applyAgentOp, GeminiAgentState.initTools] using h
      | processMessage u r => simpa [applyAgentOp, GeminiAgentState.processMessage] using h
    suffices hgen : ∀ (l : List AgentOp) (s : GeminiAgentState),
        s.model = "gemini-2.5-flash" → (l.foldl applyAgentOp s).model = "gemini-2.5-flash" by
      exact hgen ops _ rfl
    intro l
    induction l with
    | nil => intro s h; simpa using h
    | cons a t ih =>
      intro s h
      exact ih _ (step s a h)
  · intro s name h
    simp [GeminiAgentState.setModel, h]

/-- Witness for C10: a `setModel` request for another model is ignored
and the model after a mixed call sequence is still `gemini-2.5-flash`. -/
theorem model_locked_witness :
    (runAgentOps "key" [AgentOp.setModel "gemini-1.5-pro", AgentOp.clearHistory]).model =
      "gemini-2.5-flash" ∧
    GeminiAgentState.setModel (GeminiAgentState.new "key") "gemini-1.5-pro" =
      GeminiAgentState.new "key" :=
  ⟨(model_locked "key" [AgentOp.setModel "gemini-1.5-pro", AgentOp.clearHistory]).2.1,
   (model_locked "key" []).2.2 (GeminiAgentState.new "key") "gemini-1.5-pro" (by decide)⟩

end McpClient
